import Mathlib

/-!
# Verification of the tensor ICP registration pipeline

Shallow embedding of `cpp/open3d/t/pipelines/registration/Registration.cpp`
(`GetRegistrationResultAndCorrespondences`, `EvaluateRegistration`,
`RegistrationICP`) together with the contracts of its external collaborators
(nearest-neighbor search, point-cloud transform, transformation estimator),
which are modelled from the specification because their code is outside the
excerpt.

Machine doubles are modelled by exact rationals extended with the IEEE special
values `nan`, `pinf`, `ninf`; `std::sqrt` is an abstract parameter `sq` (no
verified property depends on its numeric values, only on special-value
propagation). Point clouds live in an explicit store (a list of clouds indexed
by handles) so that in-place mutation (`Clone`, `Transform`) and frame
conditions are observable. Each entry point additionally returns a trace of
the externally visible computation events (clone, transform application,
index build, index query, estimation, convergence check).
-/

namespace Open3D

/-- Tensor element dtypes (only the two precisions relevant here). -/
inductive Dtype where
  | Float32 : Dtype
  | Float64 : Dtype
deriving DecidableEq, Repr

/-- A compute device, identified by an id. -/
structure Device where
  id : Nat
deriving DecidableEq, Repr

/-- A 3-D point with exact coordinates. -/
abbrev Point := ℚ × ℚ × ℚ

/-- A 4×4 matrix of scalars (homogeneous transform). -/
abbrev Mat4 := Fin 4 → Fin 4 → ℚ

/-- Matrix product of 4×4 matrices, written out entrywise. -/
def matmul (a b : Mat4) : Mat4 := fun i j =>
  a i 0 * b 0 j + a i 1 * b 1 j + a i 2 * b 2 j + a i 3 * b 3 j

/-- The 4×4 identity matrix. -/
def idMat : Mat4 := fun i j => if i = j then 1 else 0

/-- Modelled from the spec: `PointCloud::Transform` (external collaborator)
applies the homogeneous 4×4 transform to a point, `p ↦ R p + t` using the top
three rows. -/
def applyT (T : Mat4) (p : Point) : Point :=
  (T 0 0 * p.1 + T 0 1 * p.2.1 + T 0 2 * p.2.2 + T 0 3,
   T 1 0 * p.1 + T 1 1 * p.2.1 + T 1 2 * p.2.2 + T 1 3,
   T 2 0 * p.1 + T 2 1 * p.2.1 + T 2 2 * p.2.2 + T 2 3)

/-- The bottom row of the matrix is `(0 0 0 1)`: the transform is affine. -/
def affineMat (T : Mat4) : Prop :=
  T 3 0 = 0 ∧ T 3 1 = 0 ∧ T 3 2 = 0 ∧ T 3 3 = 1

instance (T : Mat4) : Decidable (affineMat T) := by
  unfold affineMat; infer_instance

/-- Squared Euclidean distance between two points. -/
def dist2 (p q : Point) : ℚ :=
  (p.1 - q.1) ^ 2 + (p.2.1 - q.2.1) ^ 2 + (p.2.2 - q.2.2) ^ 2

/-- A machine double: an exact rational or one of the IEEE special values
produced on the paths exercised here (`0/0 → nan`, `x/0 → ±inf`). Rounding is
idealised away; no claim concerns rounding. -/
inductive D where
  | nan : D
  | pinf : D
  | ninf : D
  | val : ℚ → D
deriving DecidableEq, Repr

/-- IEEE-style division on doubles: division by zero yields `nan` for `0/0`
and a signed infinity otherwise; `nan` propagates. -/
def ddiv : D → D → D
  | D.nan, _ => D.nan
  | _, D.nan => D.nan
  | D.pinf, D.pinf => D.nan
  | D.pinf, D.ninf => D.nan
  | D.ninf, D.pinf => D.nan
  | D.ninf, D.ninf => D.nan
  | D.pinf, D.val b => if 0 ≤ b then D.pinf else D.ninf
  | D.ninf, D.val b => if 0 ≤ b then D.ninf else D.pinf
  | D.val _, D.pinf => D.val 0
  | D.val _, D.ninf => D.val 0
  | D.val a, D.val b =>
      if b = 0 then
        if a = 0 then D.nan else if 0 < a then D.pinf else D.ninf
      else D.val (a / b)

/-- IEEE-style subtraction on doubles. -/
def dsub : D → D → D
  | D.nan, _ => D.nan
  | _, D.nan => D.nan
  | D.pinf, D.pinf => D.nan
  | D.pinf, _ => D.pinf
  | D.ninf, D.ninf => D.nan
  | D.ninf, _ => D.ninf
  | D.val _, D.pinf => D.ninf
  | D.val _, D.ninf => D.pinf
  | D.val a, D.val b => D.val (a - b)

/-- `std::abs` on doubles. -/
def dabs : D → D
  | D.nan => D.nan
  | D.pinf => D.pinf
  | D.ninf => D.pinf
  | D.val q => D.val |q|

/-- IEEE-style strict comparison: any comparison against `nan` is false. -/
def dlt : D → D → Bool
  | D.nan, _ => false
  | _, D.nan => false
  | D.pinf, _ => false
  | D.ninf, D.ninf => false
  | D.ninf, _ => true
  | D.val _, D.pinf => true
  | D.val _, D.ninf => false
  | D.val a, D.val b => decide (a < b)

/-- `std::sqrt` on doubles, parametric in the numeric square root `sq` (no
claim depends on its values): special values propagate as in IEEE. -/
def dsqrt (sq : ℚ → ℚ) : D → D
  | D.nan => D.nan
  | D.pinf => D.pinf
  | D.ninf => D.nan
  | D.val q => if q < 0 then D.nan else D.val (sq q)

/-- A tensor point cloud: a device, the dtype of its positions, and the
positions themselves. -/
structure PC where
  device : Device
  dtype : Dtype
  pts : List Point
deriving DecidableEq, Repr

/-- The default cloud returned for a dangling handle; its `Float64` dtype can
never pass the `Float32` assertions, so out-of-range handles fail fast. -/
def dfltPC : PC := ⟨⟨0⟩, Dtype.Float64, []⟩

/-- The store of live point clouds; a cloud handle is an index into it. -/
abbrev Store := List PC

/-- Read the cloud at handle `h` (the default cloud when dangling). -/
def storeGet : Store → Nat → PC
  | [], _ => dfltPC
  | pc :: _, 0 => pc
  | _ :: rest, n + 1 => storeGet rest n

/-- In-place `PointCloud::Transform` on the cloud at handle `h`. -/
def storeTransform : Store → Nat → Mat4 → Store
  | [], _, _ => []
  | pc :: rest, 0, T => { pc with pts := pc.pts.map (applyT T) } :: rest
  | pc :: rest, n + 1, T => pc :: storeTransform rest n T

/-- A `core::Tensor` holding a (purported) 4×4 transformation. -/
structure Tensor4 where
  dtype : Dtype
  shape : List Nat
  m : Mat4

/-- Wrap a matrix as the Float32 4×4 tensor the pipeline passes around. -/
def mkTensor (m : Mat4) : Tensor4 := ⟨Dtype.Float32, [4, 4], m⟩

/-- Modelled from the spec: the nearest-neighbor search collaborator
(`core::nns::NearestNeighborSearch`, external). It holds the dataset it was
constructed over and, once built, the radius its index supports. -/
structure NNS where
  dataset : List Point
  indexRadius : Option ℚ

/-- Modelled from the spec: `NearestNeighborSearch::HybridIndex(radius)`,
the index build — `Build(search_radius) → bool (false on failure — not
enough points, invalid radius)`. -/
def hybridIndex (nns : NNS) (radius : ℚ) : Bool × NNS :=
  if 0 < radius ∧ nns.dataset ≠ [] then
    (true, { nns with indexRadius := some radius })
  else (false, nns)

/-- Index (and squared distance) of the nearest dataset point to `p`, the
earliest index winning ties; `i` is the index of the head of the list. -/
def nearestAux (p : Point) : List Point → Nat → Option (Nat × ℚ)
  | [], _ => none
  | q :: rest, i =>
      match nearestAux p rest (i + 1) with
      | none => some (i, dist2 p q)
      | some (j, d) => if dist2 p q ≤ d then some (i, dist2 p q) else some (j, d)

/-- Modelled from the spec: the query contract
`FindNearestWithinRadius(query_points, radius) → (match_indices_in_query,
match_indices_in_target, distances)`, returning only matches within `radius`
(squared distance at most `radius²`); unmatched query points are absent. -/
def hybridMatches (tgtPts : List Point) (radius : ℚ) : List Point → Nat → List (Nat × Nat × ℚ)
  | [], _ => []
  | p :: rest, i =>
      match nearestAux p tgtPts 0 with
      | none => hybridMatches tgtPts radius rest (i + 1)
      | some (j, d) =>
          if d ≤ radius ^ 2 then (i, j, d) :: hybridMatches tgtPts radius rest (i + 1)
          else hybridMatches tgtPts radius rest (i + 1)

/-- `NearestNeighborSearch::Hybrid1NNSearch` — the three result columns. -/
def hybrid1NNSearch (nns : NNS) (queryPts : List Point) (radius : ℚ) :
    List Nat × List Nat × List ℚ :=
  let ms := hybridMatches nns.dataset radius queryPts 0
  (ms.map (fun m => m.1), ms.map (fun m => m.2.1), ms.map (fun m => m.2.2))

/-- `RegistrationResult`: the transform that produced it, its correspondence
set (pair of index columns), `fitness` and `inlier_rmse`. The class itself is
declared in a header outside the excerpt; its fields are those the spec
lists. -/
structure RegistrationResult where
  transformation : Mat4
  corresFirst : List Nat
  corresSecond : List Nat
  fitness : D
  inlierRmse : D

/-- Modelled from the spec: the `RegistrationResult(transformation)`
constructor (header outside the excerpt) — empty correspondence set,
`fitness = 0`, `inlier_rmse = 0` (zero when no inliers exist by convention). -/
def mkResult (T : Mat4) : RegistrationResult :=
  ⟨T, [], [], D.val 0, D.val 0⟩

/-- The synchronous failures (`LogError` throws) of the registration entry
points. -/
inductive Err where
  | dtypeMismatch : Err
  | deviceMismatch : Err
  | shapeMismatch : Err
  | indexNotSet : Err
deriving DecidableEq, Repr

/-- The data of one convergence check: the previous and new fitness and
inlier RMSE, and the boolean the loop branched on. -/
structure CheckRec where
  prevF : D
  prevR : D
  newF : D
  newR : D
  pass : Bool
deriving DecidableEq, Repr

/-- Externally visible computation events, in program order. -/
inductive Event where
  | clone : Event
  | applyTransform : Mat4 → Event
  | indexBuild : Bool → Event
  | query : Event
  | estimate : Mat4 → Event
  | convCheck : CheckRec → Event

/-- Number of index-build (`HybridIndex`) calls in a trace. -/
def buildCount (tr : List Event) : Nat :=
  (tr.filter fun e => match e with | Event.indexBuild _ => true | _ => false).length

/-- Number of index queries (`Hybrid1NNSearch`) in a trace. -/
def queryCount (tr : List Event) : Nat :=
  (tr.filter fun e => match e with | Event.query => true | _ => false).length

/-- The convergence checks of a trace, in order. -/
def checksOf (tr : List Event) : List CheckRec :=
  tr.filterMap fun e => match e with | Event.convCheck c => some c | _ => none

/-- The estimator outputs of a trace, in order. -/
def estMats (tr : List Event) : List Mat4 :=
  tr.filterMap fun e => match e with | Event.estimate m => some m | _ => none

/-- The matrices applied in place to a cloud, in order. -/
def applyMats (tr : List Event) : List Mat4 :=
  tr.filterMap fun e => match e with | Event.applyTransform m => some m | _ => none

/-- `GetRegistrationResultAndCorrespondences(source, target, target_nns,
max_correspondence_distance, transformation)` (Registration.cpp lines 40-93):
dtype/device/shape assertions, the `max_correspondence_distance <= 0.0` early
return, `HybridIndex`, `Hybrid1NNSearch`, and the fitness / inlier-RMSE
computation `sqrt(squared_error / num_correspondences)`. `sq` is the numeric
square root; `source` is passed by handle into the store (already
transformed by the callers), `target_nns` is threaded through because
`HybridIndex` updates it. -/
def GetRegistrationResultAndCorrespondences (sq : ℚ → ℚ) (st : Store)
    (srcH tgtH : Nat) (nns : NNS) (mcd : ℚ) (transformation : Tensor4) :
    Except Err RegistrationResult × NNS × List Event :=
  let src := storeGet st srcH
  let tgt := storeGet st tgtH
  if src.dtype ≠ Dtype.Float32 then (Except.error Err.dtypeMismatch, nns, [])
  else if tgt.dtype ≠ Dtype.Float32 then (Except.error Err.dtypeMismatch, nns, [])
  else if tgt.device ≠ src.device then (Except.error Err.deviceMismatch, nns, [])
  else if transformation.shape ≠ [4, 4] then (Except.error Err.shapeMismatch, nns, [])
  else if transformation.dtype ≠ Dtype.Float32 then (Except.error Err.dtypeMismatch, nns, [])
  else if mcd ≤ 0 then (Except.ok (mkResult transformation.m), nns, [])
  else
    let bi := hybridIndex nns mcd
    if bi.1 = false then (Except.error Err.indexNotSet, bi.2, [Event.indexBuild false])
    else
      let cols := hybrid1NNSearch bi.2 src.pts mcd
      let numCorres : Nat := cols.1.length
      let squaredError : ℚ := cols.2.2.sum
      let fitness := ddiv (D.val numCorres) (D.val src.pts.length)
      let rmse := dsqrt sq (ddiv (D.val squaredError) (D.val numCorres))
      (Except.ok ⟨transformation.m, cols.1, cols.2.1, fitness, rmse⟩, bi.2,
       [Event.indexBuild true, Event.query])

/-- `EvaluateRegistration(source, target, max_correspondence_distance,
transformation)` (lines 95-119): the same assertions, a fresh
`NearestNeighborSearch` over `target`, `Clone` + `Transform` of `source`,
then delegation to `GetRegistrationResultAndCorrespondences`. Returns the
result, the store after the call, and the event trace. -/
def EvaluateRegistration (sq : ℚ → ℚ) (st : Store) (srcH tgtH : Nat)
    (mcd : ℚ) (transformation : Tensor4) :
    Except Err RegistrationResult × Store × List Event :=
  let src := storeGet st srcH
  let tgt := storeGet st tgtH
  if src.dtype ≠ Dtype.Float32 then (Except.error Err.dtypeMismatch, st, [])
  else if tgt.dtype ≠ Dtype.Float32 then (Except.error Err.dtypeMismatch, st, [])
  else if tgt.device ≠ src.device then (Except.error Err.deviceMismatch, st, [])
  else if transformation.shape ≠ [4, 4] then (Except.error Err.shapeMismatch, st, [])
  else if transformation.dtype ≠ Dtype.Float32 then (Except.error Err.dtypeMismatch, st, [])
  else
    let nns : NNS := ⟨tgt.pts, none⟩
    let cloneH := st.length
    let st₂ := storeTransform (st ++ [src]) cloneH transformation.m
    let out := GetRegistrationResultAndCorrespondences sq st₂ cloneH tgtH nns mcd transformation
    (out.1, st₂, Event.clone :: Event.applyTransform transformation.m :: out.2.2)

/-- `ICPConvergenceCriteria` (fields `relative_fitness_`, `relative_rmse_`,
`max_iteration_`). -/
structure ICPConvergenceCriteria where
  relative_fitness : ℚ
  relative_rmse : ℚ
  max_iteration : Nat

/-- The polymorphic `TransformationEstimation::ComputeTransformation(source,
target, corres)` capability (external): from the transformed source points,
the target points and the correspondence columns to an incremental 4×4
transform. -/
abbrev Est := List Point → List Point → List Nat × List Nat → Mat4

/-- The mutable state of the ICP loop: the store (holding the working copy of
the source at `workH`), the neighbor search object, `transformation_device`,
the current result, and the current correspondence columns. -/
structure LoopState where
  st : Store
  nns : NNS
  tdev : Mat4
  result : RegistrationResult
  corres : List Nat × List Nat

/-- The `for (int i = 0; i < criteria.max_iteration_; i++)` loop of
`RegistrationICP` (lines 152-181), by recursion on the remaining iteration
budget: estimate an update from the current correspondences, left-multiply it
onto `transformation_device`, apply it in place to the working copy,
re-evaluate, and break when both absolute differences are below the
thresholds. On an evaluation failure the state reached so far is returned
alongside the error. -/
def icpLoopGo (sq : ℚ → ℚ) (est : Est) (tgtH workH : Nat) (mcd : ℚ)
    (rf rr : ℚ) : Nat → LoopState → LoopState × Option Err × List Event
  | 0, s => (s, none, [])
  | fuel + 1, s =>
      let srcPts := (storeGet s.st workH).pts
      let tgtPts := (storeGet s.st tgtH).pts
      let update := est srcPts tgtPts s.corres
      let tdev₂ := matmul update s.tdev
      let st₂ := storeTransform s.st workH update
      let prevF := s.result.fitness
      let prevR := s.result.inlierRmse
      match GetRegistrationResultAndCorrespondences sq st₂ workH tgtH s.nns mcd (mkTensor tdev₂) with
      | (Except.error e, nns₂, evs) =>
          (⟨st₂, nns₂, tdev₂, s.result, s.corres⟩, some e,
           Event.estimate update :: Event.applyTransform update :: evs)
      | (Except.ok res₂, nns₂, evs) =>
          let b := dlt (dabs (dsub prevF res₂.fitness)) (D.val rf) &&
                   dlt (dabs (dsub prevR res₂.inlierRmse)) (D.val rr)
          let c : CheckRec := ⟨prevF, prevR, res₂.fitness, res₂.inlierRmse, b⟩
          let s₂ : LoopState := ⟨st₂, nns₂, tdev₂, res₂, (res₂.corresFirst, res₂.corresSecond)⟩
          if b then
            (s₂, none,
             Event.estimate update :: Event.applyTransform update :: evs ++ [Event.convCheck c])
          else
            let rest := icpLoopGo sq est tgtH workH mcd rf rr fuel s₂
            (rest.1, rest.2.1,
             Event.estimate update :: Event.applyTransform update :: evs ++
               Event.convCheck c :: rest.2.2)

/-- `RegistrationICP(source, target, max_correspondence_distance, init,
estimation, criteria)` (lines 121-184): the assertions, one
`NearestNeighborSearch` over `target`, `Clone` + `Transform` of `source` by
`init`, the initial evaluation, and the convergence-governed loop. -/
def RegistrationICP (sq : ℚ → ℚ) (st : Store) (srcH tgtH : Nat) (mcd : ℚ)
    (init : Tensor4) (est : Est) (criteria : ICPConvergenceCriteria) :
    Except Err RegistrationResult × Store × List Event :=
  let src := storeGet st srcH
  let tgt := storeGet st tgtH
  if src.dtype ≠ Dtype.Float32 then (Except.error Err.dtypeMismatch, st, [])
  else if tgt.dtype ≠ Dtype.Float32 then (Except.error Err.dtypeMismatch, st, [])
  else if tgt.device ≠ src.device then (Except.error Err.deviceMismatch, st, [])
  else if init.shape ≠ [4, 4] then (Except.error Err.shapeMismatch, st, [])
  else if init.dtype ≠ Dtype.Float32 then (Except.error Err.dtypeMismatch, st, [])
  else
    let nns : NNS := ⟨tgt.pts, none⟩
    let cloneH := st.length
    let st₂ := storeTransform (st ++ [src]) cloneH init.m
    match GetRegistrationResultAndCorrespondences sq st₂ cloneH tgtH nns mcd init with
    | (Except.error e, _, evs) =>
        (Except.error e, st₂, Event.clone :: Event.applyTransform init.m :: evs)
    | (Except.ok res, nns₂, evs) =>
        let s₀ : LoopState := ⟨st₂, nns₂, init.m, res, (res.corresFirst, res.corresSecond)⟩
        let lout := icpLoopGo sq est tgtH cloneH mcd criteria.relative_fitness
          criteria.relative_rmse criteria.max_iteration s₀
        match lout.2.1 with
        | some e =>
            (Except.error e, lout.1.st,
             Event.clone :: Event.applyTransform init.m :: evs ++ lout.2.2)
        | none =>
            (Except.ok lout.1.result, lout.1.st,
             Event.clone :: Event.applyTransform init.m :: evs ++ lout.2.2)

/-- The device/dtype/shape preconditions shared by the three functions, read
through the store. -/
def checksOK (st : Store) (srcH tgtH : Nat) (t : Tensor4) : Prop :=
  (storeGet st srcH).dtype = Dtype.Float32 ∧
  (storeGet st tgtH).dtype = Dtype.Float32 ∧
  (storeGet st tgtH).device = (storeGet st srcH).device ∧
  t.shape = [4, 4] ∧ t.dtype = Dtype.Float32

instance (st : Store) (srcH tgtH : Nat) (t : Tensor4) :
    Decidable (checksOK st srcH tgtH t) := by
  unfold checksOK; infer_instance

/-- The invariant the ICP loop maintains: the working and target clouds keep
passing the assertions, the search object keeps its dataset, and the current
result carries the current cumulative transform. -/
def LoopInv (tgtPts : List Point) (tgtH workH : Nat) (s : LoopState) : Prop :=
  (storeGet s.st workH).dtype = Dtype.Float32 ∧
  (storeGet s.st tgtH).dtype = Dtype.Float32 ∧
  (storeGet s.st tgtH).device = (storeGet s.st workH).device ∧
  s.nns.dataset = tgtPts ∧
  s.result.transformation = s.tdev

/-- What a run of the ICP loop guarantees, given `LoopInv` on entry: no
failure, the invariant on exit, at most `fuel` iterations, one index build
and one query per iteration (when the threshold is positive, none otherwise),
every convergence check comparing absolute differences against the
thresholds, only the final check passing, exit by exhaustion or by a passing
final check, one estimate per iteration, the final cumulative transform the
left-multiplied fold of the estimates, each estimate applied (in place) to
the working copy, and — with any fuel at all — an estimation and an in-place
application before the first check. -/
def LoopPost (tgtPts : List Point) (mcd rf rr : ℚ) (s : LoopState)
    (fuel tgtH workH : Nat) (out : LoopState × Option Err × List Event) : Prop :=
  out.2.1 = none ∧
  LoopInv tgtPts tgtH workH out.1 ∧
  (checksOf out.2.2).length ≤ fuel ∧
  buildCount out.2.2 = (if mcd ≤ 0 then 0 else (checksOf out.2.2).length) ∧
  queryCount out.2.2 = (if mcd ≤ 0 then 0 else (checksOf out.2.2).length) ∧
  (∀ c ∈ checksOf out.2.2,
     c.pass = (dlt (dabs (dsub c.prevF c.newF)) (D.val rf) &&
               dlt (dabs (dsub c.prevR c.newR)) (D.val rr))) ∧
  (∀ c ∈ (checksOf out.2.2).dropLast, c.pass = false) ∧
  ((checksOf out.2.2).length = fuel ∨
     ∃ c, (checksOf out.2.2).getLast? = some c ∧ c.pass = true) ∧
  (estMats out.2.2).length = (checksOf out.2.2).length ∧
  out.1.tdev = (estMats out.2.2).foldl (fun t v => matmul v t) s.tdev ∧
  applyMats out.2.2 = estMats out.2.2 ∧
  (1 ≤ fuel → ∃ u rest, out.2.2 = Event.estimate u :: Event.applyTransform u :: rest)

/-! ## Helper lemmas about the store -/

theorem storeGet_append_left (l₁ l₂ : Store) (n : Nat)
    (h : n < l₁.length) : storeGet (l₁ ++ l₂) n = storeGet l₁ n := by
  induction l₁ generalizing n with
  | nil => simp at h
  | cons a l ih =>
      cases n with
      | zero => rfl
      | succ m => exact ih m (by simpa using h)

theorem storeGet_append_self (l : Store) (x : PC) :
    storeGet (l ++ [x]) l.length = x := by
  induction l with
  | nil => rfl
  | cons a l ih => exact ih

theorem storeGet_of_length_le (l : Store) (n : Nat)
    (h : l.length ≤ n) : storeGet l n = dfltPC := by
  induction l generalizing n with
  | nil => cases n <;> rfl
  | cons a l ih =>
      cases n with
      | zero => simp at h
      | succ m => exact ih m (by simpa using h)

theorem storeTransform_length (st : Store) (h : Nat) (T : Mat4) :
    (storeTransform st h T).length = st.length := by
  induction st generalizing h with
  | nil => rfl
  | cons pc rest ih =>
      cases h with
      | zero => rfl
      | succ m => simpa [storeTransform] using ih m

theorem storeTransform_getElem? (st : Store) (h n : Nat) (T : Mat4)
    (hne : n ≠ h) : (storeTransform st h T)[n]? = st[n]? := by
  induction st generalizing h n with
  | nil => rfl
  | cons pc rest ih =>
      cases h with
      | zero =>
          cases n with
          | zero => exact absurd rfl hne
          | succ m => simp [storeTransform]
      | succ k =>
          cases n with
          | zero => simp [storeTransform]
          | succ m => simpa [storeTransform] using ih k m (by omega)

theorem storeTransform_storeGet_ne (st : Store) (h n : Nat) (T : Mat4)
    (hne : n ≠ h) : storeGet (storeTransform st h T) n = storeGet st n := by
  induction st generalizing h n with
  | nil => rfl
  | cons pc rest ih =>
      cases h with
      | zero =>
          cases n with
          | zero => exact absurd rfl hne
          | succ m => rfl
      | succ k =>
          cases n with
          | zero => rfl
          | succ m => exact ih k m (by omega)

theorem storeTransform_storeGet_self (st : Store) (h : Nat) (T : Mat4)
    (hlt : h < st.length) :
    storeGet (storeTransform st h T) h =
      { storeGet st h with pts := (storeGet st h).pts.map (applyT T) } := by
  induction st generalizing h with
  | nil => simp at hlt
  | cons pc rest ih =>
      cases h with
      | zero => rfl
      | succ m => exact ih m (by simpa using hlt)

/-- A dangling handle reads the `Float64` default cloud, so a handle whose
cloud passed the `Float32` assertion is in range. -/
theorem lt_length_of_dtype (st : Store) (h : Nat)
    (hd : (storeGet st h).dtype = Dtype.Float32) : h < st.length := by
  by_contra hge
  rw [storeGet_of_length_le st h (by omega)] at hd
  exact absurd hd (by simp [dfltPC])

/-! ## Helper lemmas about transforms -/

theorem affine_matmul (A B : Mat4) (hA : affineMat A) (hB : affineMat B) :
    affineMat (matmul A B) := by
  obtain ⟨a0, a1, a2, a3⟩ := hA
  obtain ⟨b0, b1, b2, b3⟩ := hB
  refine ⟨?_, ?_, ?_, ?_⟩ <;> simp [matmul, a0, a1, a2, a3, b0, b1, b2, b3]

theorem applyT_matmul (A B : Mat4) (hB : affineMat B) (p : Point) :
    applyT (matmul A B) p = applyT A (applyT B p) := by
  obtain ⟨b0, b1, b2, b3⟩ := hB
  simp only [applyT, matmul, Prod.mk.injEq]
  refine ⟨?_, ?_, ?_⟩ <;> (rw [b0, b1, b2, b3]; ring)

theorem applyT_idMat (p : Point) : applyT idMat p = p := by
  obtain ⟨x, y, z⟩ := p
  simp +decide [applyT, idMat]

/-! ## Characterization of the correspondence evaluator -/

/-- When the preconditions hold and the distance threshold is non-positive,
the evaluator short-circuits to the default-constructed result: no index
build, no query, empty correspondences, zero fitness and RMSE. -/
theorem get_shortCircuit (sq : ℚ → ℚ) (st : Store) (srcH tgtH : Nat)
    (nns : NNS) (mcd : ℚ) (t : Tensor4) (hc : checksOK st srcH tgtH t)
    (hm : mcd ≤ 0) :
    GetRegistrationResultAndCorrespondences sq st srcH tgtH nns mcd t =
      (Except.ok (mkResult t.m), nns, []) := by
  obtain ⟨h1, h2, h3, h4, h5⟩ := hc
  simp [GetRegistrationResultAndCorrespondences, h1, h2, h3, h4, h5, hm]

/-- When the preconditions hold and the threshold is positive over a nonempty
target dataset, the evaluator succeeds: it builds the index, queries once,
stores the transform it was given, and yields the fitness and RMSE of the
matches. -/
theorem get_pos (sq : ℚ → ℚ) (st : Store) (srcH tgtH : Nat) (nns : NNS)
    (mcd : ℚ) (t : Tensor4) (hc : checksOK st srcH tgtH t) (hm : 0 < mcd)
    (hd : nns.dataset ≠ []) :
    GetRegistrationResultAndCorrespondences sq st srcH tgtH nns mcd t =
      (Except.ok
        ⟨t.m,
         (hybridMatches nns.dataset mcd (storeGet st srcH).pts 0).map (fun m => m.1),
         (hybridMatches nns.dataset mcd (storeGet st srcH).pts 0).map (fun m => m.2.1),
         ddiv (D.val ((hybridMatches nns.dataset mcd (storeGet st srcH).pts 0).length))
           (D.val (storeGet st srcH).pts.length),
         dsqrt sq
           (ddiv
             (D.val ((hybridMatches nns.dataset mcd (storeGet st srcH).pts 0).map
               (fun m => m.2.2)).sum)
             (D.val ((hybridMatches nns.dataset mcd (storeGet st srcH).pts 0).length)))⟩,
       { nns with indexRadius := some mcd },
       [Event.indexBuild true, Event.query]) := by
  obtain ⟨h1, h2, h3, h4, h5⟩ := hc
  have hm' : ¬mcd ≤ 0 := not_le.mpr hm
  simp [GetRegistrationResultAndCorrespondences, h1, h2, h3, h4, h5, hm',
    hybridIndex, hybrid1NNSearch, hm, hd]

/-- Every successful evaluator call stores the transform tensor it was given
in the result, keeps the dataset of the search object, and emits an
index-build/query prefix of events with no estimates, applications or
checks. -/
theorem get_ok (sq : ℚ → ℚ) (st : Store) (srcH tgtH : Nat) (nns : NNS)
    (mcd : ℚ) (t : Tensor4) (hc : checksOK st srcH tgtH t)
    (hok : mcd ≤ 0 ∨ (0 < mcd ∧ nns.dataset ≠ [])) :
    ∃ r nns₂ evs,
      GetRegistrationResultAndCorrespondences sq st srcH tgtH nns mcd t =
        (Except.ok r, nns₂, evs) ∧
      r.transformation = t.m ∧ nns₂.dataset = nns.dataset ∧
      checksOf evs = [] ∧ estMats evs = [] ∧ applyMats evs = [] ∧
      buildCount evs = (if mcd ≤ 0 then 0 else 1) ∧
      queryCount evs = (if mcd ≤ 0 then 0 else 1) := by
  rcases hok with hm | ⟨hm, hd⟩
  · refine ⟨mkResult t.m, nns, [], get_shortCircuit sq st srcH tgtH nns mcd t hc hm, ?_⟩
    simp [mkResult, checksOf, estMats, applyMats, buildCount, queryCount, hm]
  · refine ⟨_, _, _, get_pos sq st srcH tgtH nns mcd t hc hm hd, ?_⟩
    simp [checksOf, estMats, applyMats, buildCount, queryCount, not_le.mpr hm]

/-! ## Trace bookkeeping lemmas -/

theorem checksOf_nil : checksOf [] = [] := rfl

theorem estMats_nil : estMats [] = [] := rfl

theorem applyMats_nil : applyMats [] = [] := rfl

theorem buildCount_nil : buildCount [] = 0 := rfl

theorem queryCount_nil : queryCount [] = 0 := rfl

theorem checksOf_cons (e : Event) (l : List Event) :
    checksOf (e :: l) =
      (match e with | Event.convCheck c => [c] | _ => []) ++ checksOf l := by
  cases e <;> simp [checksOf]

theorem estMats_cons (e : Event) (l : List Event) :
    estMats (e :: l) =
      (match e with | Event.estimate m => [m] | _ => []) ++ estMats l := by
  cases e <;> simp [estMats]

theorem applyMats_cons (e : Event) (l : List Event) :
    applyMats (e :: l) =
      (match e with | Event.applyTransform m => [m] | _ => []) ++ applyMats l := by
  cases e <;> simp [applyMats]

theorem buildCount_cons (e : Event) (l : List Event) :
    buildCount (e :: l) =
      (match e with | Event.indexBuild _ => 1 | _ => 0) + buildCount l := by
  cases e <;> simp [buildCount, List.filter_cons, Nat.add_comm]

theorem queryCount_cons (e : Event) (l : List Event) :
    queryCount (e :: l) =
      (match e with | Event.query => 1 | _ => 0) + queryCount l := by
  cases e <;> simp [queryCount, List.filter_cons, Nat.add_comm]

theorem checksOf_append (l₁ l₂ : List Event) :
    checksOf (l₁ ++ l₂) = checksOf l₁ ++ checksOf l₂ := by
  simp [checksOf]

theorem estMats_append (l₁ l₂ : List Event) :
    estMats (l₁ ++ l₂) = estMats l₁ ++ estMats l₂ := by
  simp [estMats]

theorem applyMats_append (l₁ l₂ : List Event) :
    applyMats (l₁ ++ l₂) = applyMats l₁ ++ applyMats l₂ := by
  simp [applyMats]

theorem buildCount_append (l₁ l₂ : List Event) :
    buildCount (l₁ ++ l₂) = buildCount l₁ + buildCount l₂ := by
  simp [buildCount]

theorem queryCount_append (l₁ l₂ : List Event) :
    queryCount (l₁ ++ l₂) = queryCount l₁ + queryCount l₂ := by
  simp [queryCount]

set_option maxHeartbeats 2000000 in
/-- Whatever path the evaluator takes, its trace holds only index-build and
query events: no estimates, no in-place applications, no convergence
checks. -/
theorem get_evs (sq : ℚ → ℚ) (st : Store) (srcH tgtH : Nat) (nns : NNS)
    (mcd : ℚ) (t : Tensor4) :
    estMats (GetRegistrationResultAndCorrespondences sq st srcH tgtH nns mcd t).2.2 = [] ∧
    applyMats (GetRegistrationResultAndCorrespondences sq st srcH tgtH nns mcd t).2.2 = [] ∧
    checksOf (GetRegistrationResultAndCorrespondences sq st srcH tgtH nns mcd t).2.2 = [] := by
  unfold GetRegistrationResultAndCorrespondences
  by_cases h1 : (storeGet st srcH).dtype = Dtype.Float32 <;>
    by_cases h2 : (storeGet st tgtH).dtype = Dtype.Float32 <;>
    by_cases h3 : (storeGet st tgtH).device = (storeGet st srcH).device <;>
    by_cases h4 : t.shape = [4, 4] <;>
    by_cases h5 : t.dtype = Dtype.Float32 <;>
    by_cases h6 : mcd ≤ 0 <;>
    by_cases h7 : (hybridIndex nns mcd).1 = false <;>
    simp [h1, h2, h3, h4, h5, h6, h7, estMats, applyMats, checksOf]

/-! ## The loop workhorse -/

/-- The ICP loop, run with the invariant and a satisfiable search context,
establishes `LoopPost`: the complete characterization of its exit status,
iteration structure, builds, queries, checks, estimates and cumulative
transform. -/
theorem icpLoopGo_spec (sq : ℚ → ℚ) (est : Est) (tgtH workH : Nat)
    (mcd rf rr : ℚ) (tgtPts : List Point) (hwt : tgtH ≠ workH)
    (hok : mcd ≤ 0 ∨ (0 < mcd ∧ tgtPts ≠ [])) :
    ∀ (fuel : Nat) (s : LoopState), LoopInv tgtPts tgtH workH s →
      LoopPost tgtPts mcd rf rr s fuel tgtH workH
        (icpLoopGo sq est tgtH workH mcd rf rr fuel s) := by
  intro fuel
  induction fuel with
  | zero =>
      intro s hinv
      refine ⟨rfl, hinv, ?_, ?_, ?_, ?_, ?_, ?_, ?_, ?_, ?_, ?_⟩ <;>
        simp [icpLoopGo, checksOf, buildCount, queryCount, estMats, applyMats]
  | succ fuel ih =>
      intro s hinv
      obtain ⟨hw, ht, hdev, hds, htr⟩ := hinv
      have hlt : workH < s.st.length := lt_length_of_dtype s.st workH hw
      set u := est (storeGet s.st workH).pts (storeGet s.st tgtH).pts s.corres with hu
      have hchk : checksOK (storeTransform s.st workH u) workH tgtH
          (mkTensor (matmul u s.tdev)) := by
        refine ⟨?_, ?_, ?_, rfl, rfl⟩
        · rw [storeTransform_storeGet_self s.st workH u hlt]; exact hw
        · rw [storeTransform_storeGet_ne s.st workH tgtH u hwt]; exact ht
        · rw [storeTransform_storeGet_ne s.st workH tgtH u hwt,
            storeTransform_storeGet_self s.st workH u hlt]
          exact hdev
      obtain ⟨r, nns₂, evs, hGet, hrt, hds₂, hcks, hest, happ, hbc, hqc⟩ :=
        get_ok sq (storeTransform s.st workH u) workH tgtH s.nns mcd
          (mkTensor (matmul u s.tdev)) hchk (by rw [hds]; exact hok)
      set bb := (dlt (dabs (dsub s.result.fitness r.fitness)) (D.val rf) &&
          dlt (dabs (dsub s.result.inlierRmse r.inlierRmse)) (D.val rr)) with hbb
      set c₀ : CheckRec :=
        ⟨s.result.fitness, s.result.inlierRmse, r.fitness, r.inlierRmse, bb⟩ with hc₀
      set s₂ : LoopState := ⟨storeTransform s.st workH u, nns₂, matmul u s.tdev, r,
        (r.corresFirst, r.corresSecond)⟩ with hs₂
      have hinv₂ : LoopInv tgtPts tgtH workH s₂ := by
        refine ⟨hchk.1, hchk.2.1, hchk.2.2.1, ?_, ?_⟩
        · show nns₂.dataset = tgtPts
          rw [hds₂, hds]
        · exact hrt
      have hstep : icpLoopGo sq est tgtH workH mcd rf rr (fuel + 1) s =
          if bb then
            (s₂, none, Event.estimate u :: Event.applyTransform u :: evs ++ [Event.convCheck c₀])
          else
            ((icpLoopGo sq est tgtH workH mcd rf rr fuel s₂).1,
             (icpLoopGo sq est tgtH workH mcd rf rr fuel s₂).2.1,
             Event.estimate u :: Event.applyTransform u :: evs ++
               Event.convCheck c₀ ::
                 (icpLoopGo sq est tgtH workH mcd rf rr fuel s₂).2.2) := by
        simp only [icpLoopGo, hu]
        rw [hGet]
      rw [hstep]
      by_cases hb : bb = true
      · rw [if_pos hb]
        have hcs : checksOf (Event.estimate u :: Event.applyTransform u ::
            evs ++ [Event.convCheck c₀]) = [c₀] := by
          simp only [checksOf_cons, checksOf_append, checksOf_nil, hcks,
            List.nil_append, List.append_nil]
        refine ⟨rfl, hinv₂, ?_, ?_, ?_, ?_, ?_, ?_, ?_, ?_, ?_, ?_⟩
        · rw [hcs]; simp
        · rw [hcs]
          simp only [buildCount_cons, buildCount_append, buildCount_nil, hbc]
          rcases le_or_lt mcd 0 with hmc | hmc
          · simp [hmc]
          · simp [not_le.mpr hmc]
        · rw [hcs]
          simp only [queryCount_cons, queryCount_append, queryCount_nil, hqc]
          rcases le_or_lt mcd 0 with hmc | hmc
          · simp [hmc]
          · simp [not_le.mpr hmc]
        · intro c hc
          rw [hcs] at hc
          rw [List.mem_singleton.mp hc, hc₀]
        · intro c hc
          rw [hcs] at hc
          simp at hc
        · right
          refine ⟨c₀, ?_, ?_⟩
          · rw [hcs]; rfl
          · rw [hc₀]; exact hb
        · rw [hcs]
          simp only [estMats_cons, estMats_append, estMats_nil, hest,
            List.nil_append, List.append_nil, List.length_cons, List.length_nil]
        · simp only [estMats_cons, estMats_append, estMats_nil, hest,
            List.nil_append, List.append_nil, List.foldl_cons, List.foldl_nil]
        · simp only [estMats_cons, estMats_append, estMats_nil, hest,
            applyMats_cons, applyMats_append, applyMats_nil, happ,
            List.nil_append, List.append_nil]
        · intro _
          exact ⟨u, _, rfl⟩
      · rw [if_neg hb]
        have hbf : bb = false := by
          cases hbbv : bb
          · rfl
          · exact absurd hbbv hb
        obtain ⟨p1, p2, p3, p4, p5, p6, p7, p8, p9, p10, p11, _⟩ := ih s₂ hinv₂
        have hcs : checksOf (Event.estimate u :: Event.applyTransform u ::
            evs ++ Event.convCheck c₀ ::
              (icpLoopGo sq est tgtH workH mcd rf rr fuel s₂).2.2) =
            c₀ :: checksOf (icpLoopGo sq est tgtH workH mcd rf rr fuel s₂).2.2 := by
          simp only [checksOf_cons, checksOf_append, checksOf_nil, hcks]
          simp
        have hem : estMats (Event.estimate u :: Event.applyTransform u ::
            evs ++ Event.convCheck c₀ ::
              (icpLoopGo sq est tgtH workH mcd rf rr fuel s₂).2.2) =
            u :: estMats (icpLoopGo sq est tgtH workH mcd rf rr fuel s₂).2.2 := by
          simp only [estMats_cons, estMats_append, estMats_nil, hest]
          simp
        refine ⟨p1, p2, ?_, ?_, ?_, ?_, ?_, ?_, ?_, ?_, ?_, ?_⟩
        · rw [hcs]
          simpa using Nat.succ_le_succ p3
        · rw [hcs]
          simp only [buildCount_cons, buildCount_append, buildCount_nil, hbc]
          rw [p4]
          rcases le_or_lt mcd 0 with hmc | hmc
          · simp [hmc]
          · simp [not_le.mpr hmc]
            omega
        · rw [hcs]
          simp only [queryCount_cons, queryCount_append, queryCount_nil, hqc]
          rw [p5]
          rcases le_or_lt mcd 0 with hmc | hmc
          · simp [hmc]
          · simp [not_le.mpr hmc]
            omega
        · intro c hc
          rw [hcs] at hc
          rcases List.mem_cons.mp hc with hc | hc
          · rw [hc, hc₀]
          · exact p6 c hc
        · intro c hc
          rw [hcs] at hc
          rcases hcsv : checksOf (icpLoopGo sq est tgtH workH mcd rf rr fuel s₂).2.2 with
            _ | ⟨x, xs⟩
          · rw [hcsv] at hc
            simp at hc
          · rw [hcsv, List.dropLast_cons₂] at hc
            rcases List.mem_cons.mp hc with hc | hc
            · rw [hc, hc₀]
              exact hbf
            · exact p7 c (by rw [hcsv]; exact hc)
        · rcases p8 with hlen | ⟨c, hc, hcp⟩
          · left
            rw [hcs]
            simp [hlen]
          · right
            refine ⟨c, ?_, hcp⟩
            rw [hcs]
            rcases hcsv : checksOf (icpLoopGo sq est tgtH workH mcd rf rr fuel s₂).2.2 with
              _ | ⟨x, xs⟩
            · rw [hcsv] at hc
              simp at hc
            · rw [hcsv] at hc
              rw [List.getLast?_cons_cons]
              exact hc
        · rw [hcs, hem]
          simp [p9]
        · rw [hem]
          simp only [List.foldl_cons]
          rw [p10, hs₂]
        · have ham : applyMats (Event.estimate u :: Event.applyTransform u ::
              evs ++ Event.convCheck c₀ ::
                (icpLoopGo sq est tgtH workH mcd rf rr fuel s₂).2.2) =
              u :: applyMats (icpLoopGo sq est tgtH workH mcd rf rr fuel s₂).2.2 := by
            simp only [applyMats_cons, applyMats_append, applyMats_nil, happ]
            simp
          rw [hem, ham, p11]
        · intro _
          exact ⟨u, _, rfl⟩


/-- The ICP loop never touches any store entry other than the working copy at
`workH`: every other handle reads back unchanged (whether the loop finishes,
breaks or fails). -/
theorem icpLoopGo_store (sq : ℚ → ℚ) (est : Est) (tgtH workH : Nat)
    (mcd rf rr : ℚ) :
    ∀ (fuel : Nat) (s : LoopState) (n : Nat), n ≠ workH →
      ((icpLoopGo sq est tgtH workH mcd rf rr fuel s).1.st)[n]? = s.st[n]? := by
  intro fuel
  induction fuel with
  | zero => intro s n hne; rfl
  | succ fuel ih =>
      intro s n hne
      set u := est (storeGet s.st workH).pts (storeGet s.st tgtH).pts s.corres with hu
      rcases hG : GetRegistrationResultAndCorrespondences sq
          (storeTransform s.st workH u) workH tgtH s.nns mcd
          (mkTensor (matmul u s.tdev)) with ⟨res, nns₂, evs⟩
      cases res with
      | error e =>
          have hstep : (icpLoopGo sq est tgtH workH mcd rf rr (fuel + 1) s).1.st =
              storeTransform s.st workH u := by
            simp only [icpLoopGo, hu]
            rw [hG]
          rw [hstep]
          exact storeTransform_getElem? s.st workH n u hne
      | ok r =>
          by_cases hb : (dlt (dabs (dsub s.result.fitness r.fitness)) (D.val rf) &&
              dlt (dabs (dsub s.result.inlierRmse r.inlierRmse)) (D.val rr)) = true
          · have hstep : (icpLoopGo sq est tgtH workH mcd rf rr (fuel + 1) s).1.st =
                storeTransform s.st workH u := by
              simp only [icpLoopGo, hu]
              rw [hG]
              dsimp only
              rw [if_pos hb]
            rw [hstep]
            exact storeTransform_getElem? s.st workH n u hne
          · have hstep : (icpLoopGo sq est tgtH workH mcd rf rr (fuel + 1) s).1.st =
                (icpLoopGo sq est tgtH workH mcd rf rr fuel
                  ⟨storeTransform s.st workH u, nns₂, matmul u s.tdev, r,
                   (r.corresFirst, r.corresSecond)⟩).1.st := by
              simp only [icpLoopGo, hu]
              rw [hG]
              dsimp only
              rw [if_neg hb]
            rw [hstep]
            rw [ih ⟨storeTransform s.st workH u, nns₂, matmul u s.tdev, r,
              (r.corresFirst, r.corresSecond)⟩ n hne]
            exact storeTransform_getElem? s.st workH n u hne

/-- The numerical heart of the iteration: with an affine initial transform
and affine estimator outputs, at every point of the run the cumulative
transform stays affine, it equals the left-multiplied fold of the estimator
outputs, every in-place application uses exactly the incremental estimate,
and the working copy equals the original source points mapped through the
cumulative transform — the cumulative matrix is never reapplied to the
original points, yet the two agree. -/
theorem icpLoopGo_affine (sq : ℚ → ℚ) (est : Est) (tgtH workH : Nat)
    (mcd rf rr : ℚ) (hestA : ∀ a b c, affineMat (est a b c)) :
    ∀ (fuel : Nat) (s : LoopState) (src₀ : List Point), affineMat s.tdev →
      workH < s.st.length →
      (storeGet s.st workH).pts = src₀.map (applyT s.tdev) →
      affineMat (icpLoopGo sq est tgtH workH mcd rf rr fuel s).1.tdev ∧
      (icpLoopGo sq est tgtH workH mcd rf rr fuel s).1.tdev =
        (estMats (icpLoopGo sq est tgtH workH mcd rf rr fuel s).2.2).foldl
          (fun t v => matmul v t) s.tdev ∧
      applyMats (icpLoopGo sq est tgtH workH mcd rf rr fuel s).2.2 =
        estMats (icpLoopGo sq est tgtH workH mcd rf rr fuel s).2.2 ∧
      (storeGet (icpLoopGo sq est tgtH workH mcd rf rr fuel s).1.st workH).pts =
        src₀.map (applyT (icpLoopGo sq est tgtH workH mcd rf rr fuel s).1.tdev) := by
  intro fuel
  induction fuel with
  | zero =>
      intro s src₀ hA hlt hpts
      exact ⟨hA, rfl, rfl, hpts⟩
  | succ fuel ih =>
      intro s src₀ hA hlt hpts
      set u := est (storeGet s.st workH).pts (storeGet s.st tgtH).pts s.corres with hu
      have hA₂ : affineMat (matmul u s.tdev) := affine_matmul u s.tdev (hestA _ _ _) hA
      have hlt₂ : workH < (storeTransform s.st workH u).length := by
        rw [storeTransform_length]; exact hlt
      have hpts₂ : (storeGet (storeTransform s.st workH u) workH).pts =
          src₀.map (applyT (matmul u s.tdev)) := by
        rw [storeTransform_storeGet_self s.st workH u hlt]
        simp only [hpts, List.map_map]
        apply List.map_congr_left
        intro p _
        exact (applyT_matmul u s.tdev hA p).symm
      rcases hG : GetRegistrationResultAndCorrespondences sq
          (storeTransform s.st workH u) workH tgtH s.nns mcd
          (mkTensor (matmul u s.tdev)) with ⟨res, nns₂, evs⟩
      have hevs := get_evs sq (storeTransform s.st workH u) workH tgtH s.nns mcd
        (mkTensor (matmul u s.tdev))
      rw [hG] at hevs
      obtain ⟨hest, happ, _⟩ := hevs
      cases res with
      | error e =>
          have hstep : icpLoopGo sq est tgtH workH mcd rf rr (fuel + 1) s =
              (⟨storeTransform s.st workH u, nns₂, matmul u s.tdev, s.result, s.corres⟩,
               some e, Event.estimate u :: Event.applyTransform u :: evs) := by
            simp only [icpLoopGo, hu]
            rw [hG]
          rw [hstep]
          refine ⟨hA₂, ?_, ?_, hpts₂⟩
          · simp only [estMats_cons, estMats_append, hest, List.nil_append,
              List.append_nil, List.foldl_cons, List.foldl_nil]
          · simp only [estMats_cons, estMats_append, hest, applyMats_cons,
              applyMats_append, happ, List.nil_append, List.append_nil]
      | ok r =>
          by_cases hb : (dlt (dabs (dsub s.result.fitness r.fitness)) (D.val rf) &&
              dlt (dabs (dsub s.result.inlierRmse r.inlierRmse)) (D.val rr)) = true
          · have hstep : icpLoopGo sq est tgtH workH mcd rf rr (fuel + 1) s =
                (⟨storeTransform s.st workH u, nns₂, matmul u s.tdev, r,
                  (r.corresFirst, r.corresSecond)⟩, none,
                 Event.estimate u :: Event.applyTransform u :: evs ++
                   [Event.convCheck ⟨s.result.fitness, s.result.inlierRmse,
                     r.fitness, r.inlierRmse,
                     dlt (dabs (dsub s.result.fitness r.fitness)) (D.val rf) &&
                     dlt (dabs (dsub s.result.inlierRmse r.inlierRmse)) (D.val rr)⟩]) := by
              simp only [icpLoopGo, hu]
              rw [hG]
              dsimp only
              rw [if_pos hb]
            rw [hstep]
            refine ⟨hA₂, ?_, ?_, hpts₂⟩
            · simp only [estMats_cons, estMats_append, estMats_nil, hest,
                List.nil_append, List.append_nil, List.foldl_cons, List.foldl_nil]
            · simp only [estMats_cons, estMats_append, estMats_nil, hest,
                applyMats_cons, applyMats_append, applyMats_nil, happ,
                List.nil_append, List.append_nil]
          · have hstep : icpLoopGo sq est tgtH workH mcd rf rr (fuel + 1) s =
                ((icpLoopGo sq est tgtH workH mcd rf rr fuel
                    ⟨storeTransform s.st workH u, nns₂, matmul u s.tdev, r,
                     (r.corresFirst, r.corresSecond)⟩).1,
                 (icpLoopGo sq est tgtH workH mcd rf rr fuel
                    ⟨storeTransform s.st workH u, nns₂, matmul u s.tdev, r,
                     (r.corresFirst, r.corresSecond)⟩).2.1,
                 Event.estimate u :: Event.applyTransform u :: evs ++
                   Event.convCheck ⟨s.result.fitness, s.result.inlierRmse,
                     r.fitness, r.inlierRmse,
                     dlt (dabs (dsub s.result.fitness r.fitness)) (D.val rf) &&
                     dlt (dabs (dsub s.result.inlierRmse r.inlierRmse)) (D.val rr)⟩ ::
                     (icpLoopGo sq est tgtH workH mcd rf rr fuel
                       ⟨storeTransform s.st workH u, nns₂, matmul u s.tdev, r,
                        (r.corresFirst, r.corresSecond)⟩).2.2) := by
              simp only [icpLoopGo, hu]
              rw [hG]
              dsimp only
              rw [if_neg hb]
            obtain ⟨q1, q2, q3, q4⟩ := ih ⟨storeTransform s.st workH u, nns₂,
              matmul u s.tdev, r, (r.corresFirst, r.corresSecond)⟩ src₀ hA₂ hlt₂ hpts₂
            rw [hstep]
            refine ⟨q1, ?_, ?_, q4⟩
            · simp only [estMats_cons, estMats_append, estMats_nil, hest,
                List.nil_append, List.append_nil, List.singleton_append,
                List.foldl_cons]
              exact q2
            · simp only [estMats_cons, estMats_append, estMats_nil, hest,
                applyMats_cons, applyMats_append, applyMats_nil, happ,
                List.nil_append, List.append_nil, List.singleton_append]
              rw [q3]


/-! ## Assembly of a successful `RegistrationICP` run -/

/-- When the preconditions hold and the search context is satisfiable, a
`RegistrationICP` run is the initial evaluation followed by the loop started
from the state `s₀` built from it, and the loop run satisfies `LoopPost`. -/
theorem icp_ok (sq : ℚ → ℚ) (st : Store) (srcH tgtH : Nat) (mcd : ℚ)
    (t : Tensor4) (est : Est) (crit : ICPConvergenceCriteria)
    (hc : checksOK st srcH tgtH t)
    (hok : mcd ≤ 0 ∨ (0 < mcd ∧ (storeGet st tgtH).pts ≠ [])) :
    ∃ (s₀ : LoopState) (evs : List Event),
      s₀.st = storeTransform (st ++ [storeGet st srcH]) st.length t.m ∧
      s₀.tdev = t.m ∧
      tgtH < st.length ∧ srcH < st.length ∧
      checksOf evs = [] ∧ estMats evs = [] ∧ applyMats evs = [] ∧
      buildCount evs = (if mcd ≤ 0 then 0 else 1) ∧
      queryCount evs = (if mcd ≤ 0 then 0 else 1) ∧
      LoopInv (storeGet st tgtH).pts tgtH st.length s₀ ∧
      LoopPost (storeGet st tgtH).pts mcd crit.relative_fitness crit.relative_rmse
        s₀ crit.max_iteration tgtH st.length
        (icpLoopGo sq est tgtH st.length mcd crit.relative_fitness
          crit.relative_rmse crit.max_iteration s₀) ∧
      RegistrationICP sq st srcH tgtH mcd t est crit =
        (Except.ok (icpLoopGo sq est tgtH st.length mcd crit.relative_fitness
            crit.relative_rmse crit.max_iteration s₀).1.result,
         (icpLoopGo sq est tgtH st.length mcd crit.relative_fitness
            crit.relative_rmse crit.max_iteration s₀).1.st,
         Event.clone :: Event.applyTransform t.m ::
           (evs ++ (icpLoopGo sq est tgtH st.length mcd crit.relative_fitness
             crit.relative_rmse crit.max_iteration s₀).2.2)) := by
  obtain ⟨h1, h2, h3, h4, h5⟩ := hc
  have hsrc : srcH < st.length := lt_length_of_dtype st srcH h1
  have htgt : tgtH < st.length := lt_length_of_dtype st tgtH h2
  have hw2 : storeGet (storeTransform (st ++ [storeGet st srcH]) st.length t.m) st.length =
      { storeGet st srcH with
        pts := (storeGet st srcH).pts.map (applyT t.m) } := by
    rw [storeTransform_storeGet_self _ _ _ (by simp), storeGet_append_self]
  have ht2 : storeGet (storeTransform (st ++ [storeGet st srcH]) st.length t.m) tgtH =
      storeGet st tgtH := by
    rw [storeTransform_storeGet_ne _ _ _ _ (by omega),
      storeGet_append_left _ _ _ htgt]
  have hchk₂ : checksOK (storeTransform (st ++ [storeGet st srcH]) st.length t.m)
      st.length tgtH t := by
    refine ⟨?_, ?_, ?_, h4, h5⟩
    · rw [hw2]; exact h1
    · rw [ht2]; exact h2
    · rw [ht2, hw2]; exact h3
  obtain ⟨r, nns₂, evs, hGet, hrt, hds₂, hcks, hest, happ, hbc, hqc⟩ :=
    get_ok sq (storeTransform (st ++ [storeGet st srcH]) st.length t.m) st.length tgtH
      ⟨(storeGet st tgtH).pts, none⟩ mcd t hchk₂ (by simpa using hok)
  refine ⟨⟨storeTransform (st ++ [storeGet st srcH]) st.length t.m, nns₂, t.m, r,
    (r.corresFirst, r.corresSecond)⟩, evs, rfl, rfl, htgt, hsrc, hcks, hest, happ,
    hbc, hqc, ?_, ?_, ?_⟩
  case _ =>
    exact ⟨by rw [hw2]; exact h1, by rw [ht2]; exact h2, by rw [ht2, hw2]; exact h3,
      by simpa using hds₂, hrt⟩
  case _ =>
    refine icpLoopGo_spec sq est tgtH st.length mcd crit.relative_fitness
      crit.relative_rmse (storeGet st tgtH).pts (by omega) hok crit.max_iteration _ ?_
    exact ⟨by rw [hw2]; exact h1, by rw [ht2]; exact h2, by rw [ht2, hw2]; exact h3,
      by simpa using hds₂, hrt⟩
  case _ =>
    have hnone := (icpLoopGo_spec sq est tgtH st.length mcd crit.relative_fitness
      crit.relative_rmse (storeGet st tgtH).pts (by omega) hok crit.max_iteration
      ⟨storeTransform (st ++ [storeGet st srcH]) st.length t.m, nns₂, t.m, r,
        (r.corresFirst, r.corresSecond)⟩
      ⟨by rw [hw2]; exact h1, by rw [ht2]; exact h2, by rw [ht2, hw2]; exact h3,
        by simpa using hds₂, hrt⟩).1
    simp only [RegistrationICP]
    rw [if_neg (not_not_intro h1), if_neg (not_not_intro h2),
      if_neg (not_not_intro h3), if_neg (not_not_intro h4),
      if_neg (not_not_intro h5)]
    rw [hGet]
    dsimp only
    rw [hnone]
    rfl


/-! ## Claim theorems -/

/-- C4: for every pair of input clouds and every transformation passing the
preconditions, a non-positive `max_correspondence_distance` short-circuits
the evaluation: the result is returned with an empty correspondence set,
`fitness = 0` and `inlier_rmse = 0`, the trace is empty (no index build, no
nearest-neighbor search), and this is a successful return, not an error. -/
theorem claim_C4_shortcircuit (sq : ℚ → ℚ) (st : Store) (srcH tgtH : Nat)
    (nns : NNS) (mcd : ℚ) (t : Tensor4) (hc : checksOK st srcH tgtH t)
    (hm : mcd ≤ 0) :
    GetRegistrationResultAndCorrespondences sq st srcH tgtH nns mcd t =
      (Except.ok ⟨t.m, [], [], D.val 0, D.val 0⟩, nns, []) :=
  get_shortCircuit sq st srcH tgtH nns mcd t hc hm

/-- Witness for C4 at a concrete input: two one-point Float32 clouds on one
device, the identity transform, and `max_correspondence_distance = -1`. -/
theorem claim_C4_witness :
    checksOK [⟨⟨0⟩, Dtype.Float32, [((0:ℚ), (0:ℚ), (0:ℚ))]⟩,
        ⟨⟨0⟩, Dtype.Float32, [((3:ℚ), (0:ℚ), (0:ℚ))]⟩] 0 1 (mkTensor idMat) ∧
      (-1 : ℚ) ≤ 0 ∧
      GetRegistrationResultAndCorrespondences (fun q => q)
        [⟨⟨0⟩, Dtype.Float32, [((0:ℚ), (0:ℚ), (0:ℚ))]⟩,
         ⟨⟨0⟩, Dtype.Float32, [((3:ℚ), (0:ℚ), (0:ℚ))]⟩] 0 1
        ⟨[((3:ℚ), (0:ℚ), (0:ℚ))], none⟩ (-1) (mkTensor idMat) =
        (Except.ok ⟨idMat, [], [], D.val 0, D.val 0⟩,
         ⟨[((3:ℚ), (0:ℚ), (0:ℚ))], none⟩, []) :=
  ⟨by decide, by norm_num,
   claim_C4_shortcircuit (fun q => q) _ 0 1 _ (-1) _ (by decide) (by norm_num)⟩

/-- C5: `RegistrationICP` with `max_iterations = 0` returns, for every input
(valid or not), exactly what `EvaluateRegistration` returns on the same
source, target, threshold and transform: same result, same store, same
events — no iteration modifies the initial evaluation. -/
theorem claim_C5_zero_iterations (sq : ℚ → ℚ) (st : Store) (srcH tgtH : Nat)
    (mcd : ℚ) (t : Tensor4) (est : Est) (rf rr : ℚ) :
    RegistrationICP sq st srcH tgtH mcd t est ⟨rf, rr, 0⟩ =
      EvaluateRegistration sq st srcH tgtH mcd t := by
  simp only [RegistrationICP, EvaluateRegistration]
  split_ifs <;> try rfl
  rcases hG : GetRegistrationResultAndCorrespondences sq
      (storeTransform (st ++ [storeGet st srcH]) st.length t.m) st.length tgtH
      ⟨(storeGet st tgtH).pts, none⟩ mcd t with ⟨res, nns₂, evs⟩
  cases res <;> simp [icpLoopGo]

/-- C3: the `RegistrationICP` loop, run under satisfiable preconditions,
always returns successfully; every convergence check compares the absolute
differences `|Δfitness|` and `|Δrmse|` strictly against the two thresholds
(`pass` is exactly that conjunction), every check except possibly the last
fails, the loop runs at most `max_iterations` iterations, and it either
exhausts `max_iterations` or stops on a final passing check. -/
theorem claim_C3_convergence (sq : ℚ → ℚ) (st : Store) (srcH tgtH : Nat)
    (mcd : ℚ) (t : Tensor4) (est : Est) (rf rr : ℚ) (mi : Nat)
    (hc : checksOK st srcH tgtH t)
    (hok : mcd ≤ 0 ∨ (0 < mcd ∧ (storeGet st tgtH).pts ≠ [])) :
    ∃ r st₂ tr, RegistrationICP sq st srcH tgtH mcd t est ⟨rf, rr, mi⟩ =
        (Except.ok r, st₂, tr) ∧
      (∀ c ∈ checksOf tr, c.pass =
        (dlt (dabs (dsub c.prevF c.newF)) (D.val rf) &&
         dlt (dabs (dsub c.prevR c.newR)) (D.val rr))) ∧
      (∀ c ∈ (checksOf tr).dropLast, c.pass = false) ∧
      (checksOf tr).length ≤ mi ∧
      ((checksOf tr).length = mi ∨
        ∃ c, (checksOf tr).getLast? = some c ∧ c.pass = true) := by
  obtain ⟨s₀, evs, _, _, _, _, hcks, _, _, _, _, _, hpost, hrun⟩ :=
    icp_ok sq st srcH tgtH mcd t est ⟨rf, rr, mi⟩ hc hok
  obtain ⟨_, _, p3, _, _, p6, p7, p8, _, _, _, _⟩ := hpost
  refine ⟨_, _, _, hrun, ?_, ?_, ?_, ?_⟩ <;>
    simp only [checksOf_cons, checksOf_append, checksOf_nil, hcks,
      List.nil_append, List.append_nil]
  · exact p6
  · exact p7
  · exact p3
  · exact p8

/-- C9: both entry points assert `Float32` on the source positions, the
target positions and the transform; inputs that are consistently `Float64`
are rejected with a dtype error before any computation (store unchanged,
empty trace). -/
theorem claim_C9_float64_rejected (sq : ℚ → ℚ) (st : Store) (srcH tgtH : Nat)
    (mcd : ℚ) (t : Tensor4) (est : Est) (crit : ICPConvergenceCriteria)
    (hs : (storeGet st srcH).dtype = Dtype.Float64)
    (_htg : (storeGet st tgtH).dtype = Dtype.Float64)
    (_htd : t.dtype = Dtype.Float64) :
    EvaluateRegistration sq st srcH tgtH mcd t =
      (Except.error Err.dtypeMismatch, st, []) ∧
    RegistrationICP sq st srcH tgtH mcd t est crit =
      (Except.error Err.dtypeMismatch, st, []) := by
  constructor <;> simp [EvaluateRegistration, RegistrationICP, hs]

/-- Witness for C9 at a concrete input: one-point Float64 clouds and a
Float64 transform, matching precisions throughout, still rejected. -/
theorem claim_C9_witness :
    (storeGet [⟨⟨0⟩, Dtype.Float64, [((0:ℚ), (0:ℚ), (0:ℚ))]⟩] 0).dtype = Dtype.Float64 ∧
    (EvaluateRegistration (fun q => q) [⟨⟨0⟩, Dtype.Float64, [((0:ℚ), (0:ℚ), (0:ℚ))]⟩]
        0 0 1 ⟨Dtype.Float64, [4, 4], idMat⟩ =
      (Except.error Err.dtypeMismatch, [⟨⟨0⟩, Dtype.Float64, [((0:ℚ), (0:ℚ), (0:ℚ))]⟩], []) ∧
    RegistrationICP (fun q => q) [⟨⟨0⟩, Dtype.Float64, [((0:ℚ), (0:ℚ), (0:ℚ))]⟩]
        0 0 1 ⟨Dtype.Float64, [4, 4], idMat⟩ (fun _ _ _ => idMat) ⟨1, 1, 1⟩ =
      (Except.error Err.dtypeMismatch, [⟨⟨0⟩, Dtype.Float64, [((0:ℚ), (0:ℚ), (0:ℚ))]⟩], [])) :=
  ⟨by decide,
   claim_C9_float64_rejected (fun q => q) _ 0 0 1 _ _ _ (by decide) (by decide) (by decide)⟩


/-- Counterexample to C2 as stated: in this concrete `RegistrationICP` run
(positive threshold, one loop iteration) the index-build routine
`HybridIndex` is invoked twice — once by the initialization evaluation and
once more by the iteration, which rebuilds before querying — so the index is
not built exactly once with iterations only querying. -/
theorem claim_C2_counterexample :
    buildCount (RegistrationICP (fun q => q)
      [⟨⟨0⟩, Dtype.Float32, [((0:ℚ), (0:ℚ), (0:ℚ))]⟩,
       ⟨⟨0⟩, Dtype.Float32, [((0:ℚ), (0:ℚ), (0:ℚ))]⟩] 0 1 1 (mkTensor idMat)
      (fun _ _ _ => idMat) ⟨1, 1, 1⟩).2.2 = 2 := by
  norm_num [RegistrationICP, GetRegistrationResultAndCorrespondences, icpLoopGo,
    storeGet, storeTransform, applyT_idMat, mkTensor, mkResult,
    hybridIndex, hybrid1NNSearch, hybridMatches, nearestAux, dist2,
    ddiv, dsub, dabs, dlt, dsqrt, buildCount, List.filter]

/-- C2 amended: the `NearestNeighborSearch` object is created once per run,
but the index-build call is issued by every evaluation — once at
initialization plus once in every iteration — and so is the query: in every
successful run with a positive threshold, builds = queries = iterations + 1
(iterations counted by the convergence checks, at most `max_iteration`). -/
theorem claim_C2_amended (sq : ℚ → ℚ) (st : Store) (srcH tgtH : Nat)
    (mcd : ℚ) (t : Tensor4) (est : Est) (crit : ICPConvergenceCriteria)
    (hc : checksOK st srcH tgtH t) (hm : 0 < mcd)
    (hd : (storeGet st tgtH).pts ≠ []) :
    ∃ r st₂ tr, RegistrationICP sq st srcH tgtH mcd t est crit =
        (Except.ok r, st₂, tr) ∧
      buildCount tr = (checksOf tr).length + 1 ∧
      queryCount tr = (checksOf tr).length + 1 ∧
      (checksOf tr).length ≤ crit.max_iteration := by
  obtain ⟨s₀, evs, _, _, _, _, hcks, _, _, hbc, hqc, _, hpost, hrun⟩ :=
    icp_ok sq st srcH tgtH mcd t est crit hc (Or.inr ⟨hm, hd⟩)
  obtain ⟨_, _, p3, p4, p5, _, _, _, _, _, _, _⟩ := hpost
  have hm' : ¬mcd ≤ 0 := not_le.mpr hm
  refine ⟨_, _, _, hrun, ?_, ?_, ?_⟩
  · simp only [buildCount_cons, buildCount_append, checksOf_cons, checksOf_append,
      checksOf_nil, hcks, hbc, p4, hm', if_false, List.nil_append, List.append_nil]
    omega
  · simp only [queryCount_cons, queryCount_append, checksOf_cons, checksOf_append,
      checksOf_nil, hcks, hqc, p5, hm', if_false, List.nil_append, List.append_nil]
    omega
  · simp only [checksOf_cons, checksOf_append, checksOf_nil, hcks,
      List.nil_append, List.append_nil]
    exact p3

/-- Witness for the amended C2 at a concrete input (both clouds one point at
the origin, threshold 1, one iteration allowed). -/
theorem claim_C2_amended_witness :
    checksOK [⟨⟨0⟩, Dtype.Float32, [((0:ℚ), (0:ℚ), (0:ℚ))]⟩,
        ⟨⟨0⟩, Dtype.Float32, [((0:ℚ), (0:ℚ), (0:ℚ))]⟩] 0 1 (mkTensor idMat) ∧
      (0 : ℚ) < 1 ∧
      (∃ r st₂ tr, RegistrationICP (fun q => q)
          [⟨⟨0⟩, Dtype.Float32, [((0:ℚ), (0:ℚ), (0:ℚ))]⟩,
           ⟨⟨0⟩, Dtype.Float32, [((0:ℚ), (0:ℚ), (0:ℚ))]⟩] 0 1 1 (mkTensor idMat)
          (fun _ _ _ => idMat) ⟨1, 1, 1⟩ = (Except.ok r, st₂, tr) ∧
        buildCount tr = (checksOf tr).length + 1 ∧
        queryCount tr = (checksOf tr).length + 1 ∧
        (checksOf tr).length ≤ (1 : Nat)) :=
  ⟨by decide, by norm_num,
   claim_C2_amended (fun q => q) _ 0 1 1 _ (fun _ _ _ => idMat) ⟨1, 1, 1⟩
     (by decide) (by norm_num) (by decide)⟩

/-- C8: a violated precondition (a dtype that is not Float32 on either
cloud, mismatched devices, or a transform tensor that is not Float32 4×4)
makes both entry points fail synchronously before any computation: an error
is returned, the store is exactly the input store (no clone, no transform
application), and the trace is empty (no index build, no search). -/
theorem claim_C8_fail_fast (sq : ℚ → ℚ) (st : Store) (srcH tgtH : Nat)
    (mcd : ℚ) (t : Tensor4) (est : Est) (crit : ICPConvergenceCriteria)
    (hviol : ¬checksOK st srcH tgtH t) :
    (∃ e, EvaluateRegistration sq st srcH tgtH mcd t = (Except.error e, st, [])) ∧
    (∃ e, RegistrationICP sq st srcH tgtH mcd t est crit = (Except.error e, st, [])) := by
  by_cases h1 : (storeGet st srcH).dtype = Dtype.Float32
  · by_cases h2 : (storeGet st tgtH).dtype = Dtype.Float32
    · by_cases h3 : (storeGet st tgtH).device = (storeGet st srcH).device
      · by_cases h4 : t.shape = [4, 4]
        · by_cases h5 : t.dtype = Dtype.Float32
          · exact absurd ⟨h1, h2, h3, h4, h5⟩ hviol
          · exact ⟨⟨Err.dtypeMismatch,
              by simp [EvaluateRegistration, h1, h2, h3, h4, h5]⟩,
              ⟨Err.dtypeMismatch,
              by simp [RegistrationICP, h1, h2, h3, h4, h5]⟩⟩
        · exact ⟨⟨Err.shapeMismatch,
            by simp [EvaluateRegistration, h1, h2, h3, h4]⟩,
            ⟨Err.shapeMismatch,
            by simp [RegistrationICP, h1, h2, h3, h4]⟩⟩
      · exact ⟨⟨Err.deviceMismatch,
          by simp [EvaluateRegistration, h1, h2, h3]⟩,
          ⟨Err.deviceMismatch,
          by simp [RegistrationICP, h1, h2, h3]⟩⟩
    · exact ⟨⟨Err.dtypeMismatch,
        by simp [EvaluateRegistration, h1, h2]⟩,
        ⟨Err.dtypeMismatch,
        by simp [RegistrationICP, h1, h2]⟩⟩
  · exact ⟨⟨Err.dtypeMismatch,
      by simp [EvaluateRegistration, h1]⟩,
      ⟨Err.dtypeMismatch,
      by simp [RegistrationICP, h1]⟩⟩

/-- Witness for C8 at a concrete input: the transform has shape 4×3, all
dtypes and devices fine — both calls fail with the store intact and an empty
trace. -/
theorem claim_C8_witness :
    ¬checksOK [⟨⟨0⟩, Dtype.Float32, [((0:ℚ), (0:ℚ), (0:ℚ))]⟩] 0 0
        ⟨Dtype.Float32, [4, 3], idMat⟩ ∧
      ((∃ e, EvaluateRegistration (fun q => q)
          [⟨⟨0⟩, Dtype.Float32, [((0:ℚ), (0:ℚ), (0:ℚ))]⟩] 0 0 1
          ⟨Dtype.Float32, [4, 3], idMat⟩ =
          (Except.error e, [⟨⟨0⟩, Dtype.Float32, [((0:ℚ), (0:ℚ), (0:ℚ))]⟩], [])) ∧
       (∃ e, RegistrationICP (fun q => q)
          [⟨⟨0⟩, Dtype.Float32, [((0:ℚ), (0:ℚ), (0:ℚ))]⟩] 0 0 1
          ⟨Dtype.Float32, [4, 3], idMat⟩ (fun _ _ _ => idMat) ⟨1, 1, 1⟩ =
          (Except.error e, [⟨⟨0⟩, Dtype.Float32, [((0:ℚ), (0:ℚ), (0:ℚ))]⟩], []))) :=
  ⟨by decide,
   claim_C8_fail_fast (fun q => q) _ 0 0 1 _ (fun _ _ _ => idMat) ⟨1, 1, 1⟩ (by decide)⟩

/-- C1 is wrong about the code: with a positive threshold and a source point
farther than the threshold from every target point, the nearest-neighbor
search returns no matches and the unguarded
`sqrt(squared_error / num_correspondences)` computes `sqrt(0.0 / 0.0)`:
`inlier_rmse` is NaN, not 0, although the correspondence set is empty. The
fitness at the same input is 0 as specified. -/
theorem claim_C1_rmse_nan_on_empty :
    (EvaluateRegistration (fun q => q)
        [⟨⟨0⟩, Dtype.Float32, [((0:ℚ), (0:ℚ), (0:ℚ))]⟩,
         ⟨⟨0⟩, Dtype.Float32, [((10:ℚ), (0:ℚ), (0:ℚ))]⟩] 0 1 1 (mkTensor idMat)).1.map
      (fun r => (r.corresFirst, r.fitness, r.inlierRmse)) =
      Except.ok ([], D.val 0, D.nan) := by
  norm_num [EvaluateRegistration, GetRegistrationResultAndCorrespondences,
    storeGet, storeTransform, applyT_idMat, mkTensor, mkResult,
    hybridIndex, hybrid1NNSearch, hybridMatches, nearestAux, dist2,
    ddiv, dsqrt, Except.map]


theorem getElem?_append_lt (l₁ l₂ : Store) (n : Nat) (h : n < l₁.length) :
    (l₁ ++ l₂)[n]? = l₁[n]? := by
  induction l₁ generalizing n with
  | nil => simp at h
  | cons a l ih =>
      cases n with
      | zero => simp
      | succ m => simpa using ih m (by simpa using h)

theorem matmul_idMat_left (a : Mat4) : matmul idMat a = a := by
  funext i j
  fin_cases i <;> simp +decide [matmul, idMat]

/-- Witness for C3 at a concrete input (`max_correspondence_distance = -1`,
so the satisfiability side condition holds on the left). -/
theorem claim_C3_witness :
    checksOK [⟨⟨0⟩, Dtype.Float32, [((0:ℚ), (0:ℚ), (0:ℚ))]⟩] 0 0 (mkTensor idMat) ∧
      ((-1 : ℚ) ≤ 0 ∨ (0 < (-1 : ℚ) ∧
        (storeGet [⟨⟨0⟩, Dtype.Float32, [((0:ℚ), (0:ℚ), (0:ℚ))]⟩] 0).pts ≠ [])) ∧
      (∃ r st₂ tr, RegistrationICP (fun q => q)
          [⟨⟨0⟩, Dtype.Float32, [((0:ℚ), (0:ℚ), (0:ℚ))]⟩] 0 0 (-1) (mkTensor idMat)
          (fun _ _ _ => idMat) ⟨1, 1, 2⟩ = (Except.ok r, st₂, tr) ∧
        (∀ c ∈ checksOf tr, c.pass =
          (dlt (dabs (dsub c.prevF c.newF)) (D.val 1) &&
           dlt (dabs (dsub c.prevR c.newR)) (D.val 1))) ∧
        (∀ c ∈ (checksOf tr).dropLast, c.pass = false) ∧
        (checksOf tr).length ≤ 2 ∧
        ((checksOf tr).length = 2 ∨
          ∃ c, (checksOf tr).getLast? = some c ∧ c.pass = true)) :=
  ⟨by decide, Or.inl (by norm_num),
   claim_C3_convergence (fun q => q) _ 0 0 (-1) _ (fun _ _ _ => idMat) 1 1 2
     (by decide) (Or.inl (by norm_num))⟩

/-- C6: in every `RegistrationICP` run (affine initial transform, affine
estimator outputs, satisfiable context), the in-place transforms applied to
the working copy are exactly the initial transform followed by the
incremental estimates — never the cumulative matrix — the returned transform
is the left-multiplied fold `uₖ ⬝ ⋯ ⬝ u₁ ⬝ init` of those increments, and the
working copy nevertheless equals the original source points mapped once
through that cumulative transform. -/
theorem claim_C6_incremental_composition (sq : ℚ → ℚ) (st : Store)
    (srcH tgtH : Nat) (mcd : ℚ) (t : Tensor4) (est : Est)
    (crit : ICPConvergenceCriteria) (hc : checksOK st srcH tgtH t)
    (hok : mcd ≤ 0 ∨ (0 < mcd ∧ (storeGet st tgtH).pts ≠ []))
    (hA : affineMat t.m) (hestA : ∀ a b c, affineMat (est a b c)) :
    ∃ r st₂ tr us,
      RegistrationICP sq st srcH tgtH mcd t est crit = (Except.ok r, st₂, tr) ∧
      estMats tr = us ∧
      applyMats tr = t.m :: us ∧
      r.transformation = us.foldl (fun m v => matmul v m) t.m ∧
      (storeGet st₂ st.length).pts =
        (storeGet st srcH).pts.map (applyT r.transformation) := by
  obtain ⟨s₀, evs, hs₀st, hs₀td, htgt, hsrc, hcks, hest, happ, _, _, _, hpost, hrun⟩ :=
    icp_ok sq st srcH tgtH mcd t est crit hc hok
  have hlt : st.length < s₀.st.length := by
    rw [hs₀st, storeTransform_length]
    simp
  have hpts : (storeGet s₀.st st.length).pts =
      (storeGet st srcH).pts.map (applyT s₀.tdev) := by
    rw [hs₀st, hs₀td, storeTransform_storeGet_self _ _ _ (by simp),
      storeGet_append_self]
  obtain ⟨q1, q2, q3, q4⟩ := icpLoopGo_affine sq est tgtH st.length mcd
    crit.relative_fitness crit.relative_rmse hestA crit.max_iteration s₀
    (storeGet st srcH).pts (by rw [hs₀td]; exact hA) hlt hpts
  have htr : (icpLoopGo sq est tgtH st.length mcd crit.relative_fitness
      crit.relative_rmse crit.max_iteration s₀).1.result.transformation =
      (icpLoopGo sq est tgtH st.length mcd crit.relative_fitness
        crit.relative_rmse crit.max_iteration s₀).1.tdev :=
    hpost.2.1.2.2.2.2
  refine ⟨_, _, _,
    estMats (icpLoopGo sq est tgtH st.length mcd crit.relative_fitness
      crit.relative_rmse crit.max_iteration s₀).2.2, hrun, ?_, ?_, ?_, ?_⟩
  · simp only [estMats_cons, estMats_append, estMats_nil, hest,
      List.nil_append, List.append_nil]
  · simp only [applyMats_cons, applyMats_append, applyMats_nil, happ,
      List.nil_append, List.append_nil, List.singleton_append]
    rw [q3]
  · rw [htr, q2, hs₀td]
  · rw [htr]
    exact q4

/-- Witness for C6 at a concrete input (identity initial transform, constant
identity estimator, non-positive threshold). -/
theorem claim_C6_witness :
    checksOK [⟨⟨0⟩, Dtype.Float32, [((1:ℚ), (2:ℚ), (3:ℚ))]⟩] 0 0 (mkTensor idMat) ∧
      ((-1 : ℚ) ≤ 0 ∨ (0 < (-1 : ℚ) ∧
        (storeGet [⟨⟨0⟩, Dtype.Float32, [((1:ℚ), (2:ℚ), (3:ℚ))]⟩] 0).pts ≠ [])) ∧
      affineMat idMat ∧ (∀ (a b : List Point) (c : List Nat × List Nat),
        affineMat ((fun _ _ _ => idMat : Est) a b c)) ∧
      (∃ r st₂ tr us, RegistrationICP (fun q => q)
          [⟨⟨0⟩, Dtype.Float32, [((1:ℚ), (2:ℚ), (3:ℚ))]⟩] 0 0 (-1) (mkTensor idMat)
          (fun _ _ _ => idMat) ⟨1, 1, 1⟩ = (Except.ok r, st₂, tr) ∧
        estMats tr = us ∧
        applyMats tr = (mkTensor idMat).m :: us ∧
        r.transformation = us.foldl (fun m v => matmul v m) (mkTensor idMat).m ∧
        (storeGet st₂ 1).pts =
          (storeGet [⟨⟨0⟩, Dtype.Float32, [((1:ℚ), (2:ℚ), (3:ℚ))]⟩] 0).pts.map
            (applyT r.transformation)) :=
  ⟨by decide, Or.inl (by norm_num), by decide,
   fun a b c => by show affineMat idMat; decide,
   claim_C6_incremental_composition (fun q => q) _ 0 0 (-1) _ (fun _ _ _ => idMat)
     ⟨1, 1, 1⟩ (by decide) (Or.inl (by norm_num)) (by decide)
     (fun a b c => by show affineMat idMat; decide)⟩

/-- C7: neither entry point mutates any pre-existing cloud in the store: the
transform is applied only to the fresh clone (handle `st.length`), so every
caller-visible handle reads back identical after the call, on every path
(precondition failure, evaluation failure, or success). -/
theorem claim_C7_no_mutation (sq : ℚ → ℚ) (st : Store) (srcH tgtH : Nat)
    (mcd : ℚ) (t : Tensor4) (est : Est) (crit : ICPConvergenceCriteria)
    (n : Nat) (hn : n < st.length) :
    ((EvaluateRegistration sq st srcH tgtH mcd t).2.1)[n]? = st[n]? ∧
    ((RegistrationICP sq st srcH tgtH mcd t est crit).2.1)[n]? = st[n]? := by
  have hne : n ≠ st.length := by omega
  constructor
  · by_cases h1 : (storeGet st srcH).dtype = Dtype.Float32
    · by_cases h2 : (storeGet st tgtH).dtype = Dtype.Float32
      · by_cases h3 : (storeGet st tgtH).device = (storeGet st srcH).device
        · by_cases h4 : t.shape = [4, 4]
          · by_cases h5 : t.dtype = Dtype.Float32
            · simp only [EvaluateRegistration]
              rw [if_neg (not_not_intro h1), if_neg (not_not_intro h2),
                if_neg (not_not_intro h3), if_neg (not_not_intro h4),
                if_neg (not_not_intro h5)]
              dsimp only
              rw [storeTransform_getElem? _ _ _ _ hne, getElem?_append_lt _ _ _ hn]
            · simp [EvaluateRegistration, h1, h2, h3, h4, h5]
          · simp [EvaluateRegistration, h1, h2, h3, h4]
        · simp [EvaluateRegistration, h1, h2, h3]
      · simp [EvaluateRegistration, h1, h2]
    · simp [EvaluateRegistration, h1]
  · by_cases h1 : (storeGet st srcH).dtype = Dtype.Float32
    · by_cases h2 : (storeGet st tgtH).dtype = Dtype.Float32
      · by_cases h3 : (storeGet st tgtH).device = (storeGet st srcH).device
        · by_cases h4 : t.shape = [4, 4]
          · by_cases h5 : t.dtype = Dtype.Float32
            · simp only [RegistrationICP]
              rw [if_neg (not_not_intro h1), if_neg (not_not_intro h2),
                if_neg (not_not_intro h3), if_neg (not_not_intro h4),
                if_neg (not_not_intro h5)]
              rcases hG : GetRegistrationResultAndCorrespondences sq
                  (storeTransform (st ++ [storeGet st srcH]) st.length t.m)
                  st.length tgtH ⟨(storeGet st tgtH).pts, none⟩ mcd t with
                ⟨res, nns₂, evs⟩
              cases res with
              | error e =>
                  dsimp only
                  rw [storeTransform_getElem? _ _ _ _ hne, getElem?_append_lt _ _ _ hn]
              | ok r =>
                  dsimp only
                  rcases hL : (icpLoopGo sq est tgtH st.length mcd
                      crit.relative_fitness crit.relative_rmse crit.max_iteration
                      ⟨storeTransform (st ++ [storeGet st srcH]) st.length t.m, nns₂,
                        t.m, r, (r.corresFirst, r.corresSecond)⟩).2.1 with _ | e
                  all_goals
                    dsimp only
                    rw [icpLoopGo_store sq est tgtH st.length mcd
                      crit.relative_fitness crit.relative_rmse crit.max_iteration
                      _ n hne]
                    dsimp only
                    rw [storeTransform_getElem? _ _ _ _ hne, getElem?_append_lt _ _ _ hn]
            · simp [RegistrationICP, h1, h2, h3, h4, h5]
          · simp [RegistrationICP, h1, h2, h3, h4]
        · simp [RegistrationICP, h1, h2, h3]
      · simp [RegistrationICP, h1, h2]
    · simp [RegistrationICP, h1]

/-- Witness for C7 at a concrete input: handle 0 of a two-cloud store reads
back identical after both calls. -/
theorem claim_C7_witness :
    0 < List.length ([⟨⟨0⟩, Dtype.Float32, [((0:ℚ), (0:ℚ), (0:ℚ))]⟩,
        ⟨⟨0⟩, Dtype.Float32, [((0:ℚ), (0:ℚ), (0:ℚ))]⟩] : Store) ∧
      (((EvaluateRegistration (fun q => q)
          [⟨⟨0⟩, Dtype.Float32, [((0:ℚ), (0:ℚ), (0:ℚ))]⟩,
           ⟨⟨0⟩, Dtype.Float32, [((0:ℚ), (0:ℚ), (0:ℚ))]⟩] 0 1 1 (mkTensor idMat)).2.1)[0]? =
        [⟨⟨0⟩, Dtype.Float32, [((0:ℚ), (0:ℚ), (0:ℚ))]⟩,
         ⟨⟨0⟩, Dtype.Float32, [((0:ℚ), (0:ℚ), (0:ℚ))]⟩][0]? ∧
      ((RegistrationICP (fun q => q)
          [⟨⟨0⟩, Dtype.Float32, [((0:ℚ), (0:ℚ), (0:ℚ))]⟩,
           ⟨⟨0⟩, Dtype.Float32, [((0:ℚ), (0:ℚ), (0:ℚ))]⟩] 0 1 1 (mkTensor idMat)
          (fun _ _ _ => idMat) ⟨1, 1, 1⟩).2.1)[0]? =
        [⟨⟨0⟩, Dtype.Float32, [((0:ℚ), (0:ℚ), (0:ℚ))]⟩,
         ⟨⟨0⟩, Dtype.Float32, [((0:ℚ), (0:ℚ), (0:ℚ))]⟩][0]?) :=
  ⟨by decide,
   claim_C7_no_mutation (fun q => q) _ 0 1 1 _ (fun _ _ _ => idMat) ⟨1, 1, 1⟩ 0
     (by decide)⟩

/-- Counterexample to C10 as stated: with `max_correspondence_distance ≤ 0`
every correspondence set is empty, a conforming estimator returns the
identity, and a `RegistrationICP` run with `max_iterations = 1` performs its
one estimation step (one estimate event) yet returns a transformation that
IS the caller-supplied `init` — the value is not distinct from `init`. -/
theorem claim_C10_counterexample :
    Except.map (fun r => r.transformation)
        (RegistrationICP (fun q => q)
          [⟨⟨0⟩, Dtype.Float32, [((0:ℚ), (0:ℚ), (0:ℚ))]⟩,
           ⟨⟨0⟩, Dtype.Float32, [((0:ℚ), (0:ℚ), (0:ℚ))]⟩] 0 1 (-1)
          ⟨Dtype.Float32, [4, 4], fun i j => if i = j then (1:ℚ) else if j = 3 then 2 else 0⟩
          (fun _ _ _ => idMat) ⟨1, 1, 1⟩).1 =
      Except.ok (fun i j => if i = j then (1:ℚ) else if j = 3 then 2 else 0) ∧
    (estMats (RegistrationICP (fun q => q)
          [⟨⟨0⟩, Dtype.Float32, [((0:ℚ), (0:ℚ), (0:ℚ))]⟩,
           ⟨⟨0⟩, Dtype.Float32, [((0:ℚ), (0:ℚ), (0:ℚ))]⟩] 0 1 (-1)
          ⟨Dtype.Float32, [4, 4], fun i j => if i = j then (1:ℚ) else if j = 3 then 2 else 0⟩
          (fun _ _ _ => idMat) ⟨1, 1, 1⟩).2.2).length = 1 := by
  constructor <;>
    norm_num [RegistrationICP, GetRegistrationResultAndCorrespondences, icpLoopGo,
      storeGet, storeTransform, mkResult, matmul_idMat_left, mkTensor,
      ddiv, dsub, dabs, dlt, estMats, List.filterMap, Except.map]

/-- C10 amended: whenever `max_iterations ≥ 1` (and the run is satisfiable),
the loop performs an estimation step and an in-place update before any
convergence check appears in the trace, and the returned transformation is
the left-multiplied composition of the (at least one) incremental updates
with `init` — though an identity increment can make that composition equal
`init` as a value. -/
theorem claim_C10_amended (sq : ℚ → ℚ) (st : Store) (srcH tgtH : Nat)
    (mcd : ℚ) (t : Tensor4) (est : Est) (crit : ICPConvergenceCriteria)
    (hc : checksOK st srcH tgtH t)
    (hok : mcd ≤ 0 ∨ (0 < mcd ∧ (storeGet st tgtH).pts ≠ []))
    (hmi : 1 ≤ crit.max_iteration) :
    ∃ r st₂ pre u rest us,
      RegistrationICP sq st srcH tgtH mcd t est crit =
        (Except.ok r, st₂, pre ++ Event.estimate u :: Event.applyTransform u :: rest) ∧
      checksOf pre = [] ∧ estMats pre = [] ∧
      estMats (pre ++ Event.estimate u :: Event.applyTransform u :: rest) = us ∧
      us ≠ [] ∧
      r.transformation = us.foldl (fun m v => matmul v m) t.m := by
  obtain ⟨s₀, evs, hs₀st, hs₀td, htgt, hsrc, hcks, hest, happ, _, _, _, hpost, hrun⟩ :=
    icp_ok sq st srcH tgtH mcd t est crit hc hok
  obtain ⟨_, hinvOut, _, _, _, _, _, _, _, p10, _, p12⟩ := hpost
  obtain ⟨u, rest, hloopTr⟩ := p12 hmi
  have htr : (icpLoopGo sq est tgtH st.length mcd crit.relative_fitness
      crit.relative_rmse crit.max_iteration s₀).1.result.transformation =
      (icpLoopGo sq est tgtH st.length mcd crit.relative_fitness
        crit.relative_rmse crit.max_iteration s₀).1.tdev :=
    hinvOut.2.2.2.2
  refine ⟨(icpLoopGo sq est tgtH st.length mcd crit.relative_fitness
      crit.relative_rmse crit.max_iteration s₀).1.result,
    (icpLoopGo sq est tgtH st.length mcd crit.relative_fitness
      crit.relative_rmse crit.max_iteration s₀).1.st,
    Event.clone :: Event.applyTransform t.m :: evs, u, rest,
    estMats (icpLoopGo sq est tgtH st.length mcd crit.relative_fitness
      crit.relative_rmse crit.max_iteration s₀).2.2, ?_, ?_, ?_, ?_, ?_, ?_⟩
  · rw [hrun, hloopTr]
    simp
  · simp only [checksOf_cons, checksOf_nil, hcks]
    simp
  · simp only [estMats_cons, estMats_nil, hest]
    simp
  · rw [hloopTr]
    simp only [estMats_cons, estMats_append, estMats_nil, hest,
      List.nil_append, List.append_nil, List.singleton_append]
  · rw [hloopTr]
    simp only [estMats_cons]
    simp
  · rw [htr, p10, hs₀td]

/-- Witness for the amended C10 at a concrete input. -/
theorem claim_C10_amended_witness :
    checksOK [⟨⟨0⟩, Dtype.Float32, [((0:ℚ), (0:ℚ), (0:ℚ))]⟩] 0 0 (mkTensor idMat) ∧
      ((-1 : ℚ) ≤ 0 ∨ (0 < (-1 : ℚ) ∧
        (storeGet [⟨⟨0⟩, Dtype.Float32, [((0:ℚ), (0:ℚ), (0:ℚ))]⟩] 0).pts ≠ [])) ∧
      1 ≤ 1 ∧
      (∃ r st₂ pre u rest us, RegistrationICP (fun q => q)
          [⟨⟨0⟩, Dtype.Float32, [((0:ℚ), (0:ℚ), (0:ℚ))]⟩] 0 0 (-1) (mkTensor idMat)
          (fun _ _ _ => idMat) ⟨1, 1, 1⟩ =
          (Except.ok r, st₂, pre ++ Event.estimate u :: Event.applyTransform u :: rest) ∧
        checksOf pre = [] ∧ estMats pre = [] ∧
        estMats (pre ++ Event.estimate u :: Event.applyTransform u :: rest) = us ∧
        us ≠ [] ∧
        r.transformation = us.foldl (fun m v => matmul v m) (mkTensor idMat).m) :=
  ⟨by decide, Or.inl (by norm_num), le_refl 1,
   claim_C10_amended (fun q => q) _ 0 0 (-1) _ (fun _ _ _ => idMat) ⟨1, 1, 1⟩
     (by decide) (Or.inl (by norm_num)) (le_refl 1)⟩

end Open3D
